import Mathlib

/-!
# Verification development for the MP4Box wrapper (`src/wrapper.py`)

This file gives a shallow embedding of the Python module `wrapper.py`,
which orchestrates video splitting and merging by driving the external
`MP4Box` command-line tool, and proves properties of the embedded
functions.

Modelling conventions:

* External processes are modelled by oracles passed as arguments: the
  duration probe receives a `ProcResult` (the outcome of
  `subprocess.check_output`), and split/merge receive a success oracle
  for each `subprocess.run` invocation.  A spawned invocation is
  recorded as its argument list (`List String`), exactly as the Python
  code builds it.
* Python exceptions are modelled with `Except PyError`: code that can
  raise returns `Except.error e`, and an uncaught exception propagates
  through `Except.bind`.
* Python `float` durations are modelled by `ℚ`; every duration the code
  manipulates is a finite decimal, and the arithmetic in the claims is
  exact over `ℚ`.
* Python strings are modelled by `String`, with the character-level
  operations (`str.split`, `str.replace`, slicing) implemented
  structurally over `List Char` so that they evaluate by `decide`/`rfl`.
-/

/-- The Python exceptions that the embedded code can raise. -/
inductive PyError where
  | calledProcessError
  | indexError
  | valueError
  | zeroDivisionError
deriving DecidableEq

/-- Outcome of `subprocess.check_output(command, stderr=subprocess.STDOUT)`:
either the captured combined stdout/stderr text of a successful run, or a
non-zero exit (which `check_output` turns into `CalledProcessError`). -/
inductive ProcResult where
  | success (output : String)
  | failure
deriving DecidableEq

/-- Equality of embedded outcomes is decidable. -/
instance {ε α : Type} [DecidableEq ε] [DecidableEq α] :
    DecidableEq (Except ε α) := fun x y =>
  match x, y with
  | Except.error a, Except.error b =>
    if h : a = b then Decidable.isTrue (by rw [h])
    else Decidable.isFalse (by simp [h])
  | Except.error _, Except.ok _ => Decidable.isFalse (by simp)
  | Except.ok _, Except.error _ => Decidable.isFalse (by simp)
  | Except.ok a, Except.ok b =>
    if h : a = b then Decidable.isTrue (by rw [h])
    else Decidable.isFalse (by simp [h])

/-! ## Character-level string operations (models of Python `str` methods) -/

/-- Auxiliary for `splitChar`: accumulates the current piece (reversed). -/
def splitCharAux (sep : Char) : List Char → List Char → List (List Char)
  | [], acc => [acc.reverse]
  | c :: cs, acc =>
    if c = sep then acc.reverse :: splitCharAux sep cs []
    else splitCharAux sep cs (c :: acc)

/-- Model of Python `str.split(sep)` for a one-character separator:
splits at every occurrence, keeping empty pieces (`"a..b".split(".") ==
["a","","b"]`, `"".split(".") == [""]`). -/
def splitChar (sep : Char) (cs : List Char) : List (List Char) :=
  splitCharAux sep cs []

/-- Auxiliary for `splitPred`. -/
def splitPredAux (p : Char → Bool) : List Char → List Char → List (List Char)
  | [], acc => [acc.reverse]
  | c :: cs, acc =>
    if p c then acc.reverse :: splitPredAux p cs []
    else splitPredAux p cs (c :: acc)

/-- Split at every character satisfying `p`, keeping empty pieces. -/
def splitPred (p : Char → Bool) (cs : List Char) : List (List Char) :=
  splitPredAux p cs []

/-- Model of Python `str.split()` (no separator): split on whitespace
runs and drop empty pieces, so the result is the list of maximal
whitespace-free tokens. -/
def py_split_whitespace (s : String) : List String :=
  ((splitPred Char.isWhitespace s.toList).filter (fun cs => cs ≠ [])).map
    (fun cs => String.mk cs)

/-- Model of the Python containment test `needle in hay` for strings:
some tail of `hay` starts with `needle`. -/
def containsStr (needle hay : String) : Bool :=
  hay.toList.tails.any (fun t => needle.toList.isPrefixOf t)

/-- Model of `str.strip()`: drop leading and trailing whitespace. -/
def pyStrip (s : String) : String :=
  String.mk (((s.toList.dropWhile Char.isWhitespace).reverse.dropWhile
    Char.isWhitespace).reverse)

/-- Model of `.replace(".", ":")` from `_get_video_duration`: a
single-character pattern and replacement, so replacement is a character
map. -/
def normalizeSep (s : String) : String :=
  String.mk (s.toList.map (fun c => if c = '.' then ':' else c))

/-- Model of Python `str.splitlines()` for LF-separated tool output.
(For output with a trailing newline Python drops the final empty line
while this model keeps it; an empty line never contains the duration
marker, so the probe is unaffected.) -/
def py_splitlines (s : String) : List String :=
  (splitChar '\n' s.toList).map (fun cs => String.mk cs)

/-- Numeric value of a decimal digit character. -/
def digitVal (c : Char) : ℕ := c.toNat - '0'.toNat

/-- Parse a non-empty all-digit character list as a natural number. -/
def parseNatDigits (cs : List Char) : Option ℕ :=
  if cs ≠ [] ∧ cs.all Char.isDigit then
    some (cs.foldl (fun n c => 10 * n + digitVal c) 0)
  else none

/-- Model of Python `int(s)` on the tokens this program feeds it: an
optional sign followed by ASCII decimal digits (`None` models
`ValueError`). -/
def py_int (s : String) : Option ℤ :=
  match s.toList with
  | '-' :: rest => (parseNatDigits rest).map (fun n => -(n : ℤ))
  | '+' :: rest => (parseNatDigits rest).map (fun n => (n : ℤ))
  | cs => (parseNatDigits cs).map (fun n => (n : ℤ))

/-! ## Path operations (models of `os.path` on POSIX) -/

/-- Model of `os.path.join(a, b)` for two components. -/
def path_join (a b : String) : String :=
  if ['/'].isPrefixOf b.toList then b
  else if a.toList = [] then b
  else if ['/'].isSuffixOf a.toList then a ++ b
  else a ++ "/" ++ b

/-- Model of `os.path.basename`: everything after the last `/`. -/
def basename (p : String) : String :=
  String.mk ((splitChar '/' p.toList).getLastD [])

/-- Index of the last occurrence of `c`, if any. -/
def lastIdxOf (c : Char) : List Char → Option ℕ
  | [] => none
  | x :: xs =>
    match lastIdxOf c xs with
    | some k => some (k + 1)
    | none => if x = c then some 0 else none

/-- Model of `os.path.splitext(s)[0]` on a basename (no `/` handling
needed because the code applies it to `os.path.basename(...)`): cut at
the last dot, unless every character before that dot is itself a dot. -/
def splitext_root (s : String) : String :=
  match lastIdxOf '.' s.toList with
  | none => s
  | some k =>
    if (s.toList.take k).any (fun c => c ≠ '.') then String.mk (s.toList.take k)
    else s

/-- Model of Python `str.endswith(".mp4")`. -/
def ends_with_mp4 (f : String) : Bool :=
  (".mp4".toList).isSuffixOf f.toList

/-- Model of `str.removesuffix(suf)`. -/
def remove_suffix (suf s : String) : String :=
  if suf.toList.isSuffixOf s.toList then
    String.mk (s.toList.take (s.toList.length - suf.toList.length))
  else s

/-! ## The wrapper class and its methods -/

/-- The configuration fields of class `MP4BoxWrapper`. -/
structure MP4BoxWrapper where
  original_video_path : String
  video_segments : String
  output_path : String
  output_directory : String

/-- Model of `MP4BoxWrapper._get_video_files`: the `.mp4`-suffixed entries of the
directory listing of `self.video_segments`, each joined onto the
directory.  The listing (`os.listdir`) is passed in as an argument. -/
def get_video_files (video_segments : String) (listing : List String) :
    List String :=
  (listing.filter ends_with_mp4).map (fun f => path_join video_segments f)

/-- The first line of the tool output containing the `Duration` marker
(`next((line for line in output.splitlines() if "Duration" in line), None)`). -/
def duration_line (output : String) : Option String :=
  (py_splitlines output).find? (fun l => containsStr "Duration" l)

/-- The four `:`-separated fields of a duration token after
`token.strip().replace(".", ":")`. -/
def duration_fields (tok : String) : List String :=
  (splitChar ':' (normalizeSep (pyStrip tok)).toList).map (fun cs => String.mk cs)

/-- Parse a duration token: `hours, minutes, seconds, millisecond =
map(int, duration_str.split(":"))` followed by
`hours * 3600 + minutes * 60 + seconds + millisecond * 1e-3`.
`none` models the `ValueError` raised when the token does not have
exactly four integer fields. -/
def parse_duration_token (tok : String) : Option ℚ :=
  match (duration_fields tok).mapM py_int with
  | some [h, m, s, ms] =>
      some ((h : ℚ) * 3600 + (m : ℚ) * 60 + (s : ℚ) + (ms : ℚ) / 1000)
  | _ => none

/-- Outcome of the token conversion inside `_get_video_duration`: a
malformed token raises `ValueError`, otherwise the parsed seconds are
returned. -/
def parse_token_result (tok : String) : Except PyError ℚ :=
  match parse_duration_token tok with
  | some q => Except.ok q
  | none => Except.error PyError.valueError

/-- Outcome of processing the found duration marker line inside
`_get_video_duration`: indexing `duration_line.split()[1]` raises
`IndexError` when the line has fewer than two whitespace tokens,
otherwise the second token is converted. -/
def line_result (l : String) : Except PyError ℚ :=
  match (py_split_whitespace l)[1]? with
  | none => Except.error PyError.indexError
  | some tok => parse_token_result tok

/-- Model of `MP4BoxWrapper._get_video_duration`: probe the duration by running
`MP4Box -info` (outcome passed in as `probe`).  `check_output` raises
`CalledProcessError` on non-zero exit — there is no `try` in the source,
so the error propagates.  If no line contains `Duration`, return `0`.
Otherwise process the found line (`line_result`). -/
def get_video_duration : ProcResult → Except PyError ℚ
  | ProcResult.failure => Except.error PyError.calledProcessError
  | ProcResult.success out =>
    match duration_line out with
    | none => Except.ok 0
    | some l => line_result l

/-- The arithmetic body of `MP4BoxWrapper._calculate_segment_count`
after the probe: `if video_duration < duration: return 0` and otherwise
`ceil(video_duration / duration)`.  Python raises `ZeroDivisionError`
on `float / 0`, which the `ℚ` model makes explicit. -/
def segment_count_core (video_duration : ℚ) (duration : ℤ) :
    Except PyError ℤ :=
  if video_duration < (duration : ℚ) then Except.ok 0
  else if duration = 0 then Except.error PyError.zeroDivisionError
  else Except.ok (Rat.ceil (video_duration / (duration : ℚ)))

/-- Model of `MP4BoxWrapper._calculate_segment_count`: probe the duration, then
apply the arithmetic body.  An exception from the probe propagates. -/
def calculate_segment_count (probe : ProcResult) (duration : ℤ) :
    Except PyError ℤ :=
  match get_video_duration probe with
  | Except.error e => Except.error e
  | Except.ok vd => segment_count_core vd duration

/-- Model of `os.path.splitext(os.path.basename(self.original_video_path))[0]`. -/
def output_base (cfg : MP4BoxWrapper) : String :=
  splitext_root (basename cfg.original_video_path)

/-- The output path of the 0-based segment `index`: the output directory
joined with the base name followed by `_segment_`, the 1-based index and
`.mp4`, as built by the f-string in the source. -/
def segment_output_path (cfg : MP4BoxWrapper) (index : ℕ) : String :=
  path_join cfg.output_directory
    (output_base cfg ++ "_segment_" ++ toString (index + 1) ++ ".mp4")

/-- The argument list of the `subprocess.run` call for segment `index`:
the tool name, `-splitx`, the rendered range `start:start+duration` with
`start = index * duration`, the input path, `-out` and the output path. -/
def split_command (cfg : MP4BoxWrapper) (duration : ℤ) (index : ℕ) :
    List String :=
  ["MP4Box", "-splitx",
   toString ((index : ℤ) * duration) ++ ":" ++
     toString ((index : ℤ) * duration + duration),
   cfg.original_video_path, "-out", segment_output_path cfg index]

/-- The `for index in range(segment_count)` loop of `split_videos`,
starting at `index` with `n` iterations left: run the command of the segment;
on failure (`CalledProcessError` from `check=True`, caught in the
source) stop and return `False`; after the last iteration return
`True`.  The result records the attempted invocations in order. -/
def run_split_segments (cfg : MP4BoxWrapper) (duration : ℤ)
    (toolOk : ℕ → Bool) : ℕ → ℕ → List (List String) × Bool
  | _, 0 => ([], true)
  | index, n + 1 =>
    if toolOk index then
      let rest := run_split_segments cfg duration toolOk (index + 1) n
      (split_command cfg duration index :: rest.1, rest.2)
    else ([split_command cfg duration index], false)

/-- Model of `MP4BoxWrapper.split_videos`: compute the segment count (exceptions
from the probe or the division propagate — the source has no `try`
around this call); if it is `0`, log and return `False` with no
invocation; otherwise run the loop over `range(segment_count)`.
Returns the attempted invocations and the boolean result. -/
def split_videos (cfg : MP4BoxWrapper) (duration : ℤ) (probe : ProcResult)
    (toolOk : ℕ → Bool) : Except PyError (List (List String) × Bool) :=
  match calculate_segment_count probe duration with
  | Except.error e => Except.error e
  | Except.ok segment_count =>
    if segment_count = 0 then Except.ok ([], false)
    else Except.ok (run_split_segments cfg duration toolOk 0 segment_count.toNat)

/-- The `-add`/`-cat` argument pairs of `merge_videos`: each file is
compared by value with `video_files[0]` (the head of the sorted list)
to decide its flag. -/
def merge_command_args (sorted : List String) : List String :=
  sorted.flatMap (fun video =>
    if video = sorted.headI then ["-add", video] else ["-cat", video])

/-- Model of `MP4BoxWrapper.merge_videos`: list the `.mp4` files; if none, log
and return `False` without spawning anything; otherwise sort them by the
caller-supplied key (`list.sort(key=...)` is the unique stable sort by
the key, modelled by `List.mergeSort`), build the single
`MP4Box -force-cat ...` command and run it once (`toolOk` is that
outcome of that invocation).  Returns the spawned command (if any) and the
boolean result. -/
def merge_videos {κ : Type} [LinearOrder κ] (cfg : MP4BoxWrapper)
    (listing : List String) (sort_function : String → κ) (toolOk : Bool) :
    Option (List String) × Bool :=
  match get_video_files cfg.video_segments listing with
  | [] => (none, false)
  | f :: fs =>
    let sorted := (f :: fs).mergeSort
      (fun a b => decide (sort_function a ≤ sort_function b))
    (some ("MP4Box" :: "-force-cat" ::
      (merge_command_args sorted ++ [cfg.output_path])), toolOk)

/-- The sort key used by the `__main__` block:
`lambda name: int(name.split("_")[-1].removesuffix(".mp4"))`
(total on the names it is actually applied to; `0` stands for the
`ValueError` case, which never occurs on those names). -/
def numeric_suffix_key (name : String) : ℤ :=
  (py_int (remove_suffix ".mp4"
    (String.mk ((splitChar '_' name.toList).getLastD [])))).getD 0

/-! ## Helper lemmas -/

/-- The executable ceiling on `ℚ` agrees with the mathematical ceiling. -/
theorem rat_ceil_eq_ceil (q : ℚ) : q.ceil = ⌈q⌉ := by
  unfold Rat.ceil
  by_cases h : q.den = 1
  · rw [if_pos h]
    have hq : ((q.num : ℚ)) = q := (Rat.den_eq_one_iff q).mp h
    calc q.num = ⌈(q.num : ℚ)⌉ := (Int.ceil_intCast q.num).symm
      _ = ⌈q⌉ := by rw [hq]
  · rw [if_neg h]
    have hfl : q.num / (q.den : ℤ) = ⌊q⌋ := Rat.floor_def.symm
    rw [hfl]
    have hne : ((⌊q⌋ : ℚ)) ≠ q := by
      intro he
      exact h (by rw [← he, Rat.den_intCast])
    have hlt : ((⌊q⌋ : ℚ)) < q := lt_of_le_of_ne (Int.floor_le q) hne
    have hup := Int.lt_floor_add_one q
    symm
    rw [Int.ceil_eq_iff]
    constructor
    · push_cast
      linarith
    · push_cast
      linarith

/-- If every invocation from `i` on succeeds, the split loop attempts all
`n` remaining segments in increasing index order and reports success. -/
theorem run_split_segments_ok (cfg : MP4BoxWrapper) (d : ℤ) (toolOk : ℕ → Bool) :
    ∀ (n i : ℕ), (∀ j, j < n → toolOk (i + j) = true) →
      run_split_segments cfg d toolOk i n =
        ((List.range' i n).map (split_command cfg d), true) := by
  intro n
  induction n with
  | zero => intro i _; rfl
  | succ n ih =>
    intro i h
    have h0 : toolOk i = true := by simpa using h 0 (by omega)
    have hrest := ih (i + 1) (fun j hj => by
      have hh := h (j + 1) (by omega)
      have e : i + (j + 1) = i + 1 + j := by omega
      rwa [e] at hh)
    simp [run_split_segments, h0, hrest, List.range']

/-- If the invocations with offsets `0..k-1` from `i` succeed and the one
at offset `k` fails, the split loop attempts exactly offsets `0..k` in
increasing index order and reports failure. -/
theorem run_split_segments_fail (cfg : MP4BoxWrapper) (d : ℤ) (toolOk : ℕ → Bool) :
    ∀ (k n i : ℕ), k < n → (∀ j, j < k → toolOk (i + j) = true) →
      toolOk (i + k) = false →
      run_split_segments cfg d toolOk i n =
        ((List.range' i (k + 1)).map (split_command cfg d), false) := by
  intro k
  induction k with
  | zero =>
    intro n i hkn h hf
    cases n with
    | zero => omega
    | succ m =>
      have hf0 : toolOk i = false := by simpa using hf
      simp [run_split_segments, hf0, List.range']
  | succ k ih =>
    intro n i hkn h hf
    cases n with
    | zero => omega
    | succ m =>
      have h0 : toolOk i = true := by simpa using h 0 (by omega)
      have hrest := ih m (i + 1) (by omega)
        (fun j hj => by
          have hh := h (j + 1) (by omega)
          have e : i + (j + 1) = i + 1 + j := by omega
          rwa [e] at hh)
        (by
          have e : i + (k + 1) = i + 1 + k := by omega
          rwa [e] at hf)
      simp [run_split_segments, h0, hrest, List.range']

/-- Mapping a conditional over a list avoiding the special element. -/
theorem flatMap_if_of_not_mem {α β : Type} [DecidableEq α]
    (A B : α → List β) (s : α) :
    ∀ (l : List α), s ∉ l →
      l.flatMap (fun v => if v = s then A v else B v) = l.flatMap B := by
  intro l
  induction l with
  | nil => intro _; rfl
  | cons x xs ih =>
    intro h
    have hx : x ≠ s := fun he => h (he ▸ List.mem_cons_self x xs)
    have hxs : s ∉ xs := fun hm => h (List.mem_cons_of_mem _ hm)
    simp [List.flatMap_cons, hx, ih hxs]

/-- Unfolding equation for the probe on a successful process run. -/
theorem get_video_duration_success (out : String) :
    get_video_duration (ProcResult.success out) =
      match duration_line out with
      | none => Except.ok 0
      | some l => line_result l := rfl

/-- The probe reduces to processing the found duration marker line. -/
theorem get_video_duration_of_line (out l : String)
    (hline : duration_line out = some l) :
    get_video_duration (ProcResult.success out) = line_result l := by
  rw [get_video_duration_success, hline]

/-- Processing a line with a second token reduces to converting it. -/
theorem line_result_of_tok (l tok : String)
    (htok : (py_split_whitespace l)[1]? = some tok) :
    line_result l = parse_token_result tok := by
  unfold line_result
  rw [htok]

/-- Unfolding equation for `split_videos` once the segment count is
known. -/
theorem split_videos_of_count (cfg : MP4BoxWrapper) (duration : ℤ)
    (probe : ProcResult) (toolOk : ℕ → Bool) (n : ℤ)
    (hc : calculate_segment_count probe duration = Except.ok n) :
    split_videos cfg duration probe toolOk =
      if n = 0 then Except.ok ([], false)
      else Except.ok (run_split_segments cfg duration toolOk 0 n.toNat) := by
  unfold split_videos
  rw [hc]

/-! ## Claims -/

/-- Claim C1, counterexample: when the external process fails, the
duration probe does not degrade to zero — `check_output` raises
`CalledProcessError` and nothing catches it, so the probe result is the
propagating error, not `0`. -/
theorem duration_probe_failure_not_zero :
    get_video_duration ProcResult.failure =
      Except.error PyError.calledProcessError ∧
    get_video_duration ProcResult.failure ≠ Except.ok 0 :=
  ⟨rfl, by decide⟩

/-- Claim C1, amended: if no line of the captured tool output contains
the duration marker, the probe returns zero; but an external-process
failure raises `CalledProcessError` past the probe boundary instead of
degrading to zero. -/
theorem duration_probe_amended :
    (∀ out : String,
      (∀ l ∈ py_splitlines out, containsStr "Duration" l = false) →
      get_video_duration (ProcResult.success out) = Except.ok 0) ∧
    get_video_duration ProcResult.failure =
      Except.error PyError.calledProcessError := by
  refine ⟨fun out h => ?_, rfl⟩
  have hnone : duration_line out = none := by
    unfold duration_line
    exact List.find?_eq_none.mpr (fun x hx => by simp [h x hx])
  rw [get_video_duration_success, hnone]

/-- Claim C1, witness for the amended theorem at a concrete output with
no duration marker line. -/
theorem duration_probe_amended_witness :
    (∀ l ∈ py_splitlines "track 1 info\nno marker here",
      containsStr "Duration" l = false) ∧
    get_video_duration (ProcResult.success "track 1 info\nno marker here") =
      Except.ok 0 :=
  ⟨by decide, duration_probe_amended.1 "track 1 info\nno marker here" (by decide)⟩

/-- Claim C2: for positive requested duration and non-negative total
duration, the segment count is `0` exactly when the total duration is
less than the requested duration, and otherwise it is the ceiling of
their quotient. -/
theorem segment_count_spec (total_duration : ℚ) (requested_duration : ℤ)
    (hd : 0 < requested_duration) (ht : 0 ≤ total_duration) :
    (segment_count_core total_duration requested_duration = Except.ok 0 ↔
      total_duration < (requested_duration : ℚ)) ∧
    (¬ total_duration < (requested_duration : ℚ) →
      segment_count_core total_duration requested_duration =
        Except.ok ⌈total_duration / (requested_duration : ℚ)⌉) := by
  have hd0 : requested_duration ≠ 0 := by omega
  have hdq : (0 : ℚ) < (requested_duration : ℚ) := by exact_mod_cast hd
  by_cases hlt : total_duration < (requested_duration : ℚ)
  · constructor
    · constructor
      · intro _; exact hlt
      · intro _
        unfold segment_count_core
        rw [if_pos hlt]
    · intro hc; exact absurd hlt hc
  · have hge : (requested_duration : ℚ) ≤ total_duration := not_lt.mp hlt
    have hpos : 0 < total_duration / (requested_duration : ℚ) :=
      div_pos (lt_of_lt_of_le hdq hge) hdq
    have hceil : 0 < ⌈total_duration / (requested_duration : ℚ)⌉ :=
      Int.ceil_pos.mpr hpos
    have hval : segment_count_core total_duration requested_duration =
        Except.ok ⌈total_duration / (requested_duration : ℚ)⌉ := by
      unfold segment_count_core
      rw [if_neg hlt, if_neg hd0, rat_ceil_eq_ceil]
    constructor
    · rw [hval]
      constructor
      · intro hh
        rw [Except.ok.injEq] at hh
        omega
      · intro hh; exact absurd hh hlt
    · intro _; exact hval

/-- Claim C2, witness at total duration `90` and requested duration `60`
(count `2 = ⌈90/60⌉`, not `0`). -/
theorem segment_count_spec_witness :
    ((0 : ℤ) < 60 ∧ (0 : ℚ) ≤ 90) ∧
    ((segment_count_core 90 60 = Except.ok 0 ↔ (90 : ℚ) < ((60 : ℤ) : ℚ)) ∧
      (¬ (90 : ℚ) < ((60 : ℤ) : ℚ) →
        segment_count_core 90 60 = Except.ok ⌈(90 : ℚ) / ((60 : ℤ) : ℚ)⌉)) ∧
    segment_count_core 90 60 = Except.ok 2 :=
  ⟨⟨by norm_num, by norm_num⟩,
   segment_count_spec 90 60 (by norm_num) (by norm_num),
   by with_unfolding_all rfl⟩

/-- Claim C3: when the duration marker line is found and its second
whitespace token normalizes (strip, replace dots by colons, split on
colons) to exactly four integer fields `h`, `m`, `s`, `ms`, the probe
returns `h*3600 + m*60 + s + ms/1000` seconds. -/
theorem duration_token_parse (out l tok : String) (h m s ms : ℤ)
    (hline : duration_line out = some l)
    (htok : (py_split_whitespace l)[1]? = some tok)
    (hfields : (duration_fields tok).mapM py_int = some [h, m, s, ms]) :
    get_video_duration (ProcResult.success out) =
      Except.ok ((h : ℚ) * 3600 + (m : ℚ) * 60 + (s : ℚ) + (ms : ℚ) / 1000) := by
  have hp : parse_duration_token tok =
      some ((h : ℚ) * 3600 + (m : ℚ) * 60 + (s : ℚ) + (ms : ℚ) / 1000) := by
    unfold parse_duration_token
    rw [hfields]
  rw [get_video_duration_of_line out l hline, line_result_of_tok l tok htok]
  unfold parse_token_result
  rw [hp]

/-- Claim C3, witness: parsing the token `01.02.03.004` yields
`1*3600 + 2*60 + 3 + 4/1000 = 3723.004` seconds. -/
theorem duration_token_parse_witness :
    (duration_line "Duration 01.02.03.004" = some "Duration 01.02.03.004" ∧
      (py_split_whitespace "Duration 01.02.03.004")[1]? = some "01.02.03.004" ∧
      (duration_fields "01.02.03.004").mapM py_int = some [1, 2, 3, 4]) ∧
    get_video_duration (ProcResult.success "Duration 01.02.03.004") =
      Except.ok ((1 : ℚ) * 3600 + (2 : ℚ) * 60 + (3 : ℚ) + (4 : ℚ) / 1000) ∧
    (1 : ℚ) * 3600 + (2 : ℚ) * 60 + (3 : ℚ) + (4 : ℚ) / 1000 = 3723.004 :=
  ⟨⟨by decide, by decide, by decide⟩,
   duration_token_parse "Duration 01.02.03.004" "Duration 01.02.03.004"
     "01.02.03.004" 1 2 3 4 (by decide) (by decide) (by decide),
   by norm_num⟩

/-- Claim C4: the split loop invokes the tool once per segment,
sequentially in increasing index order; if the tool fails on segment
index `k` (0-based) of `n`, exactly the segments `0..k` were attempted,
none after `k`, and the operation returns failure. -/
theorem split_abort_on_failure (cfg : MP4BoxWrapper) (duration : ℤ)
    (probe : ProcResult) (toolOk : ℕ → Bool) (n : ℤ) (k : ℕ)
    (hc : calculate_segment_count probe duration = Except.ok n)
    (hk : k < n.toNat)
    (hbefore : ∀ j, j < k → toolOk j = true)
    (hfail : toolOk k = false) :
    split_videos cfg duration probe toolOk =
      Except.ok ((List.range (k + 1)).map (split_command cfg duration), false) := by
  have hn0 : n ≠ 0 := by
    intro he
    rw [he] at hk
    simp at hk
  rw [split_videos_of_count cfg duration probe toolOk n hc, if_neg hn0,
    run_split_segments_fail cfg duration toolOk k n.toNat 0 hk
      (fun j hj => by simpa using hbefore j hj) (by simpa using hfail),
    List.range_eq_range']

/-- Claim C4, witness: the tool fails on segment 2 of 3 (index 1);
segment 1 is attempted, segment 3 is not, and the result is `False`. -/
theorem split_abort_on_failure_witness :
    (calculate_segment_count (ProcResult.success "Duration 00.03.00.000") 60 =
        Except.ok 3 ∧
      (1 : ℕ) < (3 : ℤ).toNat ∧
      (∀ j, j < 1 → (fun i => i == 0) j = true) ∧
      (fun i => i == 0) 1 = false) ∧
    split_videos
        ⟨"original.mp4", "video_segments", "merged.mp4", "video_segments"⟩ 60
        (ProcResult.success "Duration 00.03.00.000") (fun i => i == 0) =
      Except.ok
        ([["MP4Box", "-splitx", "0:60", "original.mp4", "-out",
            "video_segments/original_segment_1.mp4"],
          ["MP4Box", "-splitx", "60:120", "original.mp4", "-out",
            "video_segments/original_segment_2.mp4"]], false) :=
  ⟨⟨by with_unfolding_all rfl, by decide, by decide, by decide⟩,
   (split_abort_on_failure
      ⟨"original.mp4", "video_segments", "merged.mp4", "video_segments"⟩ 60
      (ProcResult.success "Duration 00.03.00.000") (fun i => i == 0) 3 1
      (by with_unfolding_all rfl) (by decide) (by decide) (by decide)).trans
     (by with_unfolding_all rfl)⟩

/-- Claim C5: with a positive segment count `n` and every invocation
succeeding, the split issues exactly the `n` commands for indices
`0..n-1` in order and succeeds; the command of index `i` carries the
range from `i*duration` to `i*duration + duration` and the output file
built from the base name of the source plus the 1-based segment
suffix. -/
theorem split_commands_spec (cfg : MP4BoxWrapper) (duration : ℤ)
    (probe : ProcResult) (toolOk : ℕ → Bool) (n : ℤ)
    (hc : calculate_segment_count probe duration = Except.ok n)
    (hn : 0 < n)
    (hall : ∀ j, j < n.toNat → toolOk j = true) :
    split_videos cfg duration probe toolOk =
      Except.ok ((List.range n.toNat).map (split_command cfg duration), true) ∧
    ∀ i : ℕ, split_command cfg duration i =
      ["MP4Box", "-splitx",
        toString ((i : ℤ) * duration) ++ ":" ++
          toString ((i : ℤ) * duration + duration),
        cfg.original_video_path, "-out",
        path_join cfg.output_directory
          (splitext_root (basename cfg.original_video_path) ++ "_segment_" ++
            toString (i + 1) ++ ".mp4")] := by
  constructor
  · have hn0 : n ≠ 0 := by omega
    rw [split_videos_of_count cfg duration probe toolOk n hc, if_neg hn0,
      run_split_segments_ok cfg duration toolOk n.toNat 0
        (fun j hj => by simpa using hall j hj),
      List.range_eq_range']
  · intro i
    rfl

/-- Claim C5, witness: total duration `90`, requested duration `60`
gives exactly 2 segments with ranges `0:60` and `60:120`. -/
theorem split_commands_spec_witness :
    (calculate_segment_count (ProcResult.success "Duration 00.01.30.000") 60 =
        Except.ok 2 ∧
      (0 : ℤ) < 2 ∧
      (∀ j, j < (2 : ℤ).toNat → (fun _ => true) j = true)) ∧
    split_videos
        ⟨"original.mp4", "video_segments", "merged.mp4", "video_segments"⟩ 60
        (ProcResult.success "Duration 00.01.30.000") (fun _ => true) =
      Except.ok
        ([["MP4Box", "-splitx", "0:60", "original.mp4", "-out",
            "video_segments/original_segment_1.mp4"],
          ["MP4Box", "-splitx", "60:120", "original.mp4", "-out",
            "video_segments/original_segment_2.mp4"]], true) :=
  ⟨⟨by with_unfolding_all rfl, by decide, by decide⟩,
   ((split_commands_spec
      ⟨"original.mp4", "video_segments", "merged.mp4", "video_segments"⟩ 60
      (ProcResult.success "Duration 00.01.30.000") (fun _ => true) 2
      (by with_unfolding_all rfl) (by decide) (by decide)).1).trans
     (by with_unfolding_all rfl)⟩

/-- Claim C9: when the computed segment count is zero, `split_videos`
issues no tool invocation and returns `False` — the same boolean that an
external-tool failure produces, so the two outcomes are
indistinguishable through the return value. -/
theorem split_skip_returns_false (cfg : MP4BoxWrapper) (duration : ℤ)
    (probe : ProcResult) (toolOk : ℕ → Bool) :
    (calculate_segment_count probe duration = Except.ok 0 →
      split_videos cfg duration probe toolOk = Except.ok ([], false)) ∧
    (∀ n : ℤ, ∀ k : ℕ,
      calculate_segment_count probe duration = Except.ok n →
      k < n.toNat → (∀ j, j < k → toolOk j = true) → toolOk k = false →
      ∃ cmds, split_videos cfg duration probe toolOk =
        Except.ok (cmds, false)) := by
  constructor
  · intro h0
    rw [split_videos_of_count cfg duration probe toolOk 0 h0, if_pos rfl]
  · intro n k hc hk hbefore hfail
    have hn0 : n ≠ 0 := by
      intro he
      rw [he] at hk
      simp at hk
    refine ⟨(List.range' 0 (k + 1)).map (split_command cfg duration), ?_⟩
    rw [split_videos_of_count cfg duration probe toolOk n hc, if_neg hn0,
      run_split_segments_fail cfg duration toolOk k n.toNat 0 hk
        (fun j hj => by simpa using hbefore j hj) (by simpa using hfail)]

/-- Claim C9, witness: a 30-second video with requested duration 60 has
segment count zero; the split spawns nothing and returns `False`. -/
theorem split_skip_returns_false_witness :
    calculate_segment_count (ProcResult.success "Duration 00.00.30.000") 60 =
      Except.ok 0 ∧
    split_videos
        ⟨"original.mp4", "video_segments", "merged.mp4", "video_segments"⟩ 60
        (ProcResult.success "Duration 00.00.30.000") (fun _ => true) =
      Except.ok ([], false) :=
  ⟨by with_unfolding_all rfl,
   (split_skip_returns_false
      ⟨"original.mp4", "video_segments", "merged.mp4", "video_segments"⟩ 60
      (ProcResult.success "Duration 00.00.30.000") (fun _ => true)).1
     (by with_unfolding_all rfl)⟩

/-- Claim C8, counterexample: the segment count calculation is not
guarded against non-positive requested durations — requested duration
`0` reaches an uncontrolled `ZeroDivisionError` (not an
input-validation rejection), and requested duration `-60` silently
returns `-1`. -/
theorem segment_count_unguarded_counterexample :
    segment_count_core 90 0 = Except.error PyError.zeroDivisionError ∧
    segment_count_core 90 (-60) = Except.ok (-1) :=
  ⟨by with_unfolding_all rfl, by with_unfolding_all rfl⟩

/-- Claim C8, amended: the calculation has no guard for non-positive
requested durations: with non-negative total duration, requested
duration `0` raises `ZeroDivisionError`, and a negative requested
duration returns the (non-positive) ceiling of the quotient with no
error. -/
theorem segment_count_unguarded (t : ℚ) (ht : 0 ≤ t) (d : ℤ) :
    (d = 0 → segment_count_core t d = Except.error PyError.zeroDivisionError) ∧
    (d < 0 → segment_count_core t d = Except.ok ⌈t / (d : ℚ)⌉ ∧
      ⌈t / (d : ℚ)⌉ ≤ 0) := by
  constructor
  · intro h0
    subst h0
    unfold segment_count_core
    rw [if_neg (by rw [Int.cast_zero]; exact not_lt.mpr ht), if_pos rfl]
  · intro hneg
    have hdq : ((d : ℚ)) < 0 := by exact_mod_cast hneg
    have hnlt : ¬ t < (d : ℚ) := not_lt.mpr (le_trans (le_of_lt hdq) ht)
    have hd0 : d ≠ 0 := by omega
    have hdiv : t / (d : ℚ) ≤ 0 := div_nonpos_iff.mpr (Or.inl ⟨ht, le_of_lt hdq⟩)
    refine ⟨?_, ?_⟩
    · unfold segment_count_core
      rw [if_neg hnlt, if_neg hd0, rat_ceil_eq_ceil]
    · rw [Int.ceil_le]
      push_cast
      exact hdiv

/-- Claim C8, witness for the amended theorem at total duration `90`
and requested duration `-60`. -/
theorem segment_count_unguarded_witness :
    ((0 : ℚ) ≤ 90 ∧ (-60 : ℤ) < 0) ∧
    segment_count_core 90 (-60) = Except.ok ⌈(90 : ℚ) / ((-60 : ℤ) : ℚ)⌉ ∧
    ⌈(90 : ℚ) / ((-60 : ℤ) : ℚ)⌉ ≤ 0 :=
  ⟨⟨by norm_num, by norm_num⟩,
   (segment_count_unguarded 90 (by norm_num) (-60)).2 (by norm_num)⟩

/-- Claim C10: if the first line containing the duration marker has
fewer than two whitespace tokens the probe raises `IndexError`, and if
its second token does not parse into exactly four integer fields it
raises `ValueError`; in neither case does it return zero. -/
theorem malformed_duration_line_raises (out l : String)
    (hline : duration_line out = some l) :
    ((py_split_whitespace l).length < 2 →
      get_video_duration (ProcResult.success out) =
        Except.error PyError.indexError) ∧
    (∀ tok, (py_split_whitespace l)[1]? = some tok →
      parse_duration_token tok = none →
      get_video_duration (ProcResult.success out) =
        Except.error PyError.valueError) := by
  constructor
  · intro hlen
    rw [get_video_duration_of_line out l hline]
    unfold line_result
    rw [List.getElem?_eq_none (by omega)]
  · intro tok htok hparse
    rw [get_video_duration_of_line out l hline, line_result_of_tok l tok htok]
    unfold parse_token_result
    rw [hparse]

/-- Claim C10, witness: a marker line with a single token raises
`IndexError`; a three-field token raises `ValueError`. -/
theorem malformed_duration_line_raises_witness :
    (duration_line "Duration" = some "Duration" ∧
      (py_split_whitespace "Duration").length < 2 ∧
      get_video_duration (ProcResult.success "Duration") =
        Except.error PyError.indexError) ∧
    (duration_line "Duration 01.02.03" = some "Duration 01.02.03" ∧
      parse_duration_token "01.02.03" = none ∧
      get_video_duration (ProcResult.success "Duration 01.02.03") =
        Except.error PyError.valueError) :=
  ⟨⟨by decide, by decide,
    (malformed_duration_line_raises "Duration" "Duration" (by decide)).1
      (by decide)⟩,
   ⟨by decide, by decide,
    (malformed_duration_line_raises "Duration 01.02.03" "Duration 01.02.03"
        (by decide)).2 "01.02.03" (by decide) (by decide)⟩⟩

/-- Unfolding equation for `merge_videos` with a non-empty file list. -/
theorem merge_videos_of_files {κ : Type} [LinearOrder κ] (cfg : MP4BoxWrapper)
    (listing : List String) (sort_function : String → κ) (toolOk : Bool)
    (f : String) (fs : List String)
    (hfiles : get_video_files cfg.video_segments listing = f :: fs) :
    merge_videos cfg listing sort_function toolOk =
      (some ("MP4Box" :: "-force-cat" ::
        (merge_command_args ((f :: fs).mergeSort
          (fun a b => decide (sort_function a ≤ sort_function b))) ++
          [cfg.output_path])), toolOk) := by
  unfold merge_videos
  rw [hfiles]

/-- Claim C7: if no entry of the directory listing carries the `.mp4`
extension, the merge returns failure and spawns no external process. -/
theorem merge_no_inputs {κ : Type} [LinearOrder κ] (cfg : MP4BoxWrapper)
    (listing : List String) (sort_function : String → κ) (toolOk : Bool)
    (h : ∀ f ∈ listing, ends_with_mp4 f = false) :
    merge_videos cfg listing sort_function toolOk = (none, false) := by
  have hnil : get_video_files cfg.video_segments listing = [] := by
    unfold get_video_files
    rw [List.filter_eq_nil_iff.mpr (fun a ha => by simp [h a ha])]
    rfl
  unfold merge_videos
  rw [hnil]

/-- Claim C7, witness: an empty listing and a listing with only
non-`.mp4` entries both yield failure with no spawned process. -/
theorem merge_no_inputs_witness :
    (∀ f ∈ ([] : List String), ends_with_mp4 f = false) ∧
    merge_videos ⟨"", "v", "out.mp4", ""⟩ ([] : List String)
      numeric_suffix_key true = (none, false) ∧
    merge_videos ⟨"", "v", "out.mp4", ""⟩ ["notes.txt", "clip.avi"]
      numeric_suffix_key true = (none, false) :=
  ⟨by decide,
   merge_no_inputs ⟨"", "v", "out.mp4", ""⟩ [] numeric_suffix_key true
     (by decide),
   merge_no_inputs ⟨"", "v", "out.mp4", ""⟩ ["notes.txt", "clip.avi"]
     numeric_suffix_key true (by decide)⟩

/-- Claim C6: for a non-empty (duplicate-free) list of discovered files,
the merge sorts them by the caller-supplied key (the result is a
permutation, sorted by the key, and stable: any key-ordered pair keeps
its relative order), and builds one command line with the global
force-concatenation flag, the first sorted file behind the base-input
flag, every later file behind the append flag, and the output path
last. -/
theorem merge_command_spec {κ : Type} [LinearOrder κ] (cfg : MP4BoxWrapper)
    (listing : List String) (sort_function : String → κ) (toolOk : Bool)
    (f : String) (fs : List String)
    (hfiles : get_video_files cfg.video_segments listing = f :: fs)
    (hnd : (f :: fs).Nodup) :
    ∃ s0 tail,
      (f :: fs).mergeSort
        (fun a b => decide (sort_function a ≤ sort_function b)) = s0 :: tail ∧
      merge_videos cfg listing sort_function toolOk =
        (some ("MP4Box" :: "-force-cat" :: "-add" :: s0 ::
          (tail.flatMap (fun v => ["-cat", v]) ++ [cfg.output_path])), toolOk) ∧
      List.Perm (s0 :: tail) (f :: fs) ∧
      List.Pairwise (fun a b => sort_function a ≤ sort_function b)
        (s0 :: tail) ∧
      (∀ a b, List.Sublist [a, b] (f :: fs) →
        sort_function a ≤ sort_function b →
        List.Sublist [a, b] (s0 :: tail)) := by
  have htrans : ∀ (a b c : String),
      (fun a b => decide (sort_function a ≤ sort_function b)) a b →
      (fun a b => decide (sort_function a ≤ sort_function b)) b c →
      (fun a b => decide (sort_function a ≤ sort_function b)) a c :=
    fun a b c hab hbc =>
      decide_eq_true (le_trans (of_decide_eq_true hab) (of_decide_eq_true hbc))
  have htotal : ∀ (a b : String),
      ((fun a b => decide (sort_function a ≤ sort_function b)) a b ||
       (fun a b => decide (sort_function a ≤ sort_function b)) b a) := by
    intro a b
    rcases le_total (sort_function a) (sort_function b) with hle | hle
    · simp [decide_eq_true hle]
    · simp [decide_eq_true hle]
  obtain ⟨s0, tail, hsort⟩ : ∃ s0 tail,
      (f :: fs).mergeSort
        (fun a b => decide (sort_function a ≤ sort_function b)) =
        s0 :: tail := by
    cases hs : (f :: fs).mergeSort
        (fun a b => decide (sort_function a ≤ sort_function b)) with
    | nil =>
      have := congrArg List.length hs
      simp at this
    | cons a l => exact ⟨a, l, rfl⟩
  have hperm : List.Perm (s0 :: tail) (f :: fs) := by
    rw [← hsort]
    exact List.mergeSort_perm _ _
  have hndsorted : (s0 :: tail).Nodup := hperm.symm.nodup hnd
  have hs0 : s0 ∉ tail := (List.nodup_cons.mp hndsorted).1
  refine ⟨s0, tail, hsort, ?_, hperm, ?_, ?_⟩
  · rw [merge_videos_of_files cfg listing sort_function toolOk f fs hfiles,
      hsort]
    unfold merge_command_args
    rw [List.flatMap_cons]
    simp [List.headI, flatMap_if_of_not_mem _ _ s0 tail hs0]
  · have hp := List.sorted_mergeSort htrans htotal (f :: fs)
    rw [hsort] at hp
    exact hp.imp (fun hab => of_decide_eq_true hab)
  · intro a b hsub hab
    have hres := List.pair_sublist_mergeSort htrans htotal
      (decide_eq_true hab) hsub
    rwa [hsort] at hres

/-- The numeric-suffix key orders the three example files as
`a_1, a_2, a_10` (not lexicographically). -/
theorem numeric_suffix_sort_example :
    (["v/a_1.mp4", "v/a_10.mp4", "v/a_2.mp4"] : List String).mergeSort
      (fun a b => decide (numeric_suffix_key a ≤ numeric_suffix_key b)) =
    ["v/a_1.mp4", "v/a_2.mp4", "v/a_10.mp4"] := by
  have htrans : ∀ (a b c : String),
      (fun a b => decide (numeric_suffix_key a ≤ numeric_suffix_key b)) a b →
      (fun a b => decide (numeric_suffix_key a ≤ numeric_suffix_key b)) b c →
      (fun a b => decide (numeric_suffix_key a ≤ numeric_suffix_key b)) a c :=
    fun a b c hab hbc =>
      decide_eq_true (le_trans (of_decide_eq_true hab) (of_decide_eq_true hbc))
  have htotal : ∀ (a b : String),
      ((fun a b => decide (numeric_suffix_key a ≤ numeric_suffix_key b)) a b ||
       (fun a b => decide (numeric_suffix_key a ≤ numeric_suffix_key b)) b a) := by
    intro a b
    rcases le_total (numeric_suffix_key a) (numeric_suffix_key b) with hle | hle
    · simp [decide_eq_true hle]
    · simp [decide_eq_true hle]
  have hs1 := (List.sorted_mergeSort htrans htotal
      (["v/a_1.mp4", "v/a_10.mp4", "v/a_2.mp4"] : List String)).imp
    (fun hab => of_decide_eq_true hab :
      ∀ {a b : String}, _ → numeric_suffix_key a ≤ numeric_suffix_key b)
  have hs2 : (["v/a_1.mp4", "v/a_2.mp4", "v/a_10.mp4"] : List String).Pairwise
      (fun a b : String => numeric_suffix_key a ≤ numeric_suffix_key b) := by
    decide
  have hp : List.Perm
      ((["v/a_1.mp4", "v/a_10.mp4", "v/a_2.mp4"] : List String).mergeSort
        (fun a b => decide (numeric_suffix_key a ≤ numeric_suffix_key b)))
      ["v/a_1.mp4", "v/a_2.mp4", "v/a_10.mp4"] :=
    (List.mergeSort_perm _ _).trans (by decide)
  have w : ∀ a b : String,
      a ∈ (["v/a_1.mp4", "v/a_10.mp4", "v/a_2.mp4"] : List String).mergeSort
        (fun a b => decide (numeric_suffix_key a ≤ numeric_suffix_key b)) →
      b ∈ (["v/a_1.mp4", "v/a_2.mp4", "v/a_10.mp4"] : List String) →
      numeric_suffix_key a ≤ numeric_suffix_key b →
      numeric_suffix_key b ≤ numeric_suffix_key a → a = b := by
    intro a b ha hb
    rw [List.mem_mergeSort] at ha
    fin_cases ha <;> fin_cases hb <;> decide
  exact List.Perm.eq_of_sorted w hs1 hs2 hp

/-- Claim C6, witness: the discovered files `a_1, a_10, a_2` are sorted
by the numeric-suffix key to `a_1, a_2, a_10`, and the single command
line is the force-concatenation flag, the first sorted file behind
`-add`, the remaining ones behind `-cat`, and the output path last. -/
theorem merge_command_spec_witness :
    (get_video_files "v" ["a_1.mp4", "a_10.mp4", "a_2.mp4"] =
        "v/a_1.mp4" :: ["v/a_10.mp4", "v/a_2.mp4"] ∧
      ("v/a_1.mp4" :: ["v/a_10.mp4", "v/a_2.mp4"] : List String).Nodup) ∧
    (∃ s0 tail,
      ("v/a_1.mp4" :: ["v/a_10.mp4", "v/a_2.mp4"] : List String).mergeSort
        (fun a b => decide (numeric_suffix_key a ≤ numeric_suffix_key b)) =
        s0 :: tail ∧
      merge_videos ⟨"", "v", "out.mp4", ""⟩ ["a_1.mp4", "a_10.mp4", "a_2.mp4"]
          numeric_suffix_key true =
        (some ("MP4Box" :: "-force-cat" :: "-add" :: s0 ::
          (tail.flatMap (fun v => ["-cat", v]) ++
            [(MP4BoxWrapper.mk "" "v" "out.mp4" "").output_path])), true) ∧
      List.Perm (s0 :: tail) ("v/a_1.mp4" :: ["v/a_10.mp4", "v/a_2.mp4"]) ∧
      List.Pairwise (fun a b => numeric_suffix_key a ≤ numeric_suffix_key b)
        (s0 :: tail) ∧
      (∀ a b, List.Sublist [a, b] ("v/a_1.mp4" :: ["v/a_10.mp4", "v/a_2.mp4"]) →
        numeric_suffix_key a ≤ numeric_suffix_key b →
        List.Sublist [a, b] (s0 :: tail))) ∧
    merge_videos ⟨"", "v", "out.mp4", ""⟩ ["a_1.mp4", "a_10.mp4", "a_2.mp4"]
        numeric_suffix_key true =
      (some ["MP4Box", "-force-cat", "-add", "v/a_1.mp4", "-cat", "v/a_2.mp4",
        "-cat", "v/a_10.mp4", "out.mp4"], true) := by
  refine ⟨⟨by decide, by decide⟩,
    merge_command_spec ⟨"", "v", "out.mp4", ""⟩ ["a_1.mp4", "a_10.mp4", "a_2.mp4"]
      numeric_suffix_key true "v/a_1.mp4" ["v/a_10.mp4", "v/a_2.mp4"]
      (by decide) (by decide), ?_⟩
  have hm := merge_videos_of_files ⟨"", "v", "out.mp4", ""⟩
    ["a_1.mp4", "a_10.mp4", "a_2.mp4"] numeric_suffix_key true
    "v/a_1.mp4" ["v/a_10.mp4", "v/a_2.mp4"] (by decide)
  rw [numeric_suffix_sort_example] at hm
  exact hm.trans (by decide)
